import Mathlib

/-!
Shallow embedding of the computational core of fastTSNE (`src/tsne/_tsne.pyx`).

IEEE doubles are modelled as exact rationals (`ℚ`) where the code is purely
rational arithmetic, and as exact reals (`ℝ`) where the code calls `sqrt`,
`exp`, `log` or raises to a real power.  The IEEE `INFINITY` sentinels used
by the code (`y_min = INFINITY`, `min_beta = -INFINITY`, tested only with
`isinf`) are modelled by `WithTop`/`WithBot`/`Option` sentinels.
`EPSILON = np.finfo(np.float64).eps = 2^-52`.
-/

/-- `EPSILON` (`np.finfo(np.float64).eps`), as a rational: `2^-52`. -/
def EPSILONQ : ℚ := 1 / 2 ^ 52

/-- `EPSILON` (`np.finfo(np.float64).eps`), as a real: `2^-52`. -/
noncomputable def EPSILONR : ℝ := 1 / 2 ^ 52

/-- The min/max scan opening `compute_negative_gradients_fft_1d`
(`_tsne.pyx` lines 300-306): `y_min = INFINITY`, `y_max = -INFINITY`, then for
each coordinate `if e < y_min: y_min = e; elif e > y_max: y_max = e`.
The `INFINITY` sentinels are modelled by `⊤ : WithTop ℚ` and `⊥ : WithBot ℚ`. -/
def minmax1d (ys : List ℚ) : WithTop ℚ × WithBot ℚ :=
  ys.foldl
    (fun acc y =>
      if (y : WithTop ℚ) < acc.1 then ((y : WithTop ℚ), acc.2)
      else if acc.2 < (y : WithBot ℚ) then (acc.1, (y : WithBot ℚ))
      else acc)
    (⊤, ⊥)

/-- The min/max scan opening `compute_negative_gradients_fft_2d`
(`_tsne.pyx` lines 465-475): one shared `coord_min`/`coord_max` pair, updated by
an `if`/`elif` block for the x coordinate and then one for the y coordinate of
each point. -/
def minmax2d (ps : List (ℚ × ℚ)) : WithTop ℚ × WithBot ℚ :=
  ps.foldl
    (fun acc p =>
      let acc1 :=
        if (p.1 : WithTop ℚ) < acc.1 then ((p.1 : WithTop ℚ), acc.2)
        else if acc.2 < (p.1 : WithBot ℚ) then (acc.1, (p.1 : WithBot ℚ))
        else acc
      if (p.2 : WithTop ℚ) < acc1.1 then ((p.2 : WithTop ℚ), acc1.2)
      else if acc1.2 < (p.2 : WithBot ℚ) then (acc1.1, (p.2 : WithBot ℚ))
      else acc1)
    (⊤, ⊥)

/-- One step of the Hadamard-product loop of `compute_negative_gradients_fft_2d`
(`_tsne.pyx` lines 633-637), acting on a coefficient `a + b*I` and a kernel
value `c + d*I`.  The code assigns
`fft_w_coeffs[i].real = a*c - b*d` and then reads the just-overwritten real
part: `fft_w_coeffs[i].imag = fft_w_coeffs[i].real * d + c * b`. -/
def fft2d_hadamard_step (a b c d : ℚ) : ℚ × ℚ :=
  let r := a * c - b * d
  (r, r * d + c * b)

/-- The Student-t similarity as both gradient engines compute it
(`_tsne.pyx` lines 151-153 in `compute_positive_gradients` and lines 244-246 in
`estimate_negative_gradient`), as a function of `dof` and of the code's
distance value `D`:
`q_ij = dof / (dof + D); if dof != 1: q_ij = q_ij ** (dof + 1) / 2`.
Python's `**` binds tighter than `/`, so the second line computes
`(q_ij ^ (dof + 1)) / 2`. -/
noncomputable def tstudent_q (dof D : ℝ) : ℝ :=
  let q := dof / (dof + D)
  if dof = 1 then q else q ^ (dof + 1) / 2

/-- Modelled from the spec: the Student-t similarity as the specification
states it — `q_ij = dof / (dof + ‖yᵢ − yⱼ‖²)`, raised to the power
`(dof+1)/2` when `dof ≠ 1` — as a function of `dof` and the squared
distance `sqd`.  This is the comparison definition for the claim about the
`q_ij` formula; it is written from the spec's words, not from the code. -/
noncomputable def tstudent_q_spec (dof sqd : ℝ) : ℝ :=
  let q := dof / (dof + sqd)
  if dof = 1 then q else q ^ ((dof + 1) / 2)

/-- Modelled from the spec: a quadtree node as described in the spec's data
model (`quad_tree.pyx` itself is not under `src/`): a point count (total
mass), a leaf flag, a center of mass with one coordinate per dimension, a side
length, and a list of children (empty for leaves).  `estimate_negative_gradient`
reads exactly these fields of `Node`. -/
inductive QNode (dims : ℕ) : Type where
  | mk (numPoints : ℕ) (isLeaf : Bool) (com : Fin dims → ℝ) (len : ℝ)
       (children : List (QNode dims))

/-- Modelled from the spec: `is_duplicate(node, point)` from `quad_tree.pyx`
(not under `src/`).  The spec says self-interactions are "a leaf containing q
exactly", so the predicate holds when every coordinate of the node's center of
mass equals the query point's coordinate. -/
def IsDuplicateOf {dims : ℕ} (com point : Fin dims → ℝ) : Prop :=
  ∀ d, com d = point d

/-- The distance value `estimate_negative_gradient` computes
(`_tsne.pyx` lines 233, 239-240): `distance = EPSILON` and then
`distance += (node.center_of_mass[d] - point[d]) ** 2` for every dimension. -/
noncomputable def nodePointDistance {dims : ℕ} (com point : Fin dims → ℝ) : ℝ :=
  EPSILONR + ∑ d, (com d - point d) ^ 2

open Classical in
/-- `estimate_negative_gradient` (`_tsne.pyx` lines 220-256).  Returns the pair
(increment to `sum_Q[0]`, increment to `gradient[d]` per dimension) that the
call adds to its output pointers.  Empty nodes and duplicate leaves return
immediately; a leaf, or a node with `node.length / sqrt(distance) < theta`, is
summarized; otherwise the children are visited (`for d in range(1 << n_dims)`,
modelled as the child list). -/
noncomputable def estimate_negative_gradient {dims : ℕ} :
    QNode dims → (Fin dims → ℝ) → ℝ → ℝ → ℝ × (Fin dims → ℝ)
  | QNode.mk np leaf com len ch, point, theta, dof =>
    if np = 0 ∨ (leaf = true ∧ IsDuplicateOf com point) then (0, fun _ => 0)
    else
      if leaf = true ∨ len / Real.sqrt (nodePointDistance com point) < theta then
        let q := tstudent_q dof (nodePointDistance com point)
        ((np : ℝ) * q, fun d => -((np : ℝ) * q ^ 2 * (point d - com d)))
      else
        ((ch.attach.map
            (fun c => (estimate_negative_gradient c.1 point theta dof).1)).sum,
         fun d =>
           (ch.attach.map
             (fun c => (estimate_negative_gradient c.1 point theta dof).2 d)).sum)
decreasing_by
  all_goals
    have h := List.sizeOf_lt_of_mem c.2
    simp only [QNode.mk.sizeOf_spec]
    omega

/-- `compute_negative_gradients_bh` (`_tsne.pyx` lines 172-217): a pre-sized
per-point slot array `sum_Qi` is filled by the per-point traversals, the global
`sum_Q` is reduced serially over the slots, every entry of the gradient array
(which the traversals already incremented in place) is divided by
`sum_Q + EPSILON`, and `sum_Q` is returned.  `num_threads` is clamped to at
least 1 and only affects scheduling, which exact arithmetic does not see. -/
noncomputable def compute_negative_gradients_bh {dims N : ℕ}
    (root : QNode dims) (embedding gradient : Fin N → Fin dims → ℝ)
    (theta dof : ℝ) (numThreads : ℤ) : ℝ × (Fin N → Fin dims → ℝ) :=
  let nt := if numThreads < 1 then 1 else numThreads
  let sumQi : Fin N → ℝ :=
    fun i => (estimate_negative_gradient root (embedding i) theta dof).1
  let sumQ : ℝ := (List.ofFn sumQi).sum
  let _ := nt
  (sumQ,
   fun i d =>
     (gradient i d + (estimate_negative_gradient root (embedding i) theta dof).2 d)
       / (sumQ + EPSILONR))

/-- Per-row state of `compute_gaussian_perplexity`'s binary search
(`_tsne.pyx` lines 72-104): the current precision `beta[i]`, the brackets
`min_beta`/`max_beta` (initialized to `-INFINITY`/`INFINITY` and tested only
with `isinf`, modelled as `Option ℝ` with `none` for the infinite sentinel),
the row `P[i, :]` written so far, the last computed `sum_Pi` and the last
computed `entropy`. -/
structure PerpState where
  beta : ℝ
  minBeta : Option ℝ
  maxBeta : Option ℝ
  P : ℕ → ℝ
  sumPi : ℝ
  entropy : ℝ

/-- The evaluation phase of one binary-search iteration
(`_tsne.pyx` lines 76-85): write `P[i, j] = exp(-distances[i, j] * beta[i])`
for `j < k`, accumulate `sum_Pi` and the entropy accumulator, add `EPSILON`
to `sum_Pi`, and set `entropy = log(sum_Pi) + beta[i] * acc / sum_Pi`. -/
noncomputable def perpEvalState (d : ℕ → ℝ) (k : ℕ) (s : PerpState) : PerpState :=
  let P' : ℕ → ℝ := fun j => if j < k then Real.exp (-(d j) * s.beta) else s.P j
  let raw : ℝ := ∑ j ∈ Finset.range k, Real.exp (-(d j) * s.beta)
  let acc : ℝ := ∑ j ∈ Finset.range k, d j * Real.exp (-(d j) * s.beta)
  let sum' : ℝ := raw + EPSILONR
  { s with P := P', sumPi := sum', entropy := Real.log sum' + s.beta * acc / sum' }

open Classical in
/-- The bracket-update phase of one binary-search iteration
(`_tsne.pyx` lines 90-101), taken when the entropy is not within tolerance:
if `entropy - desired > 0`, raise the lower bound to `beta` and double `beta`
(when the upper bound is infinite) or move it to the midpoint with the upper
bound; otherwise lower the upper bound to `beta` and halve `beta` (when the
lower bound is infinite) or move it to the midpoint with the lower bound. -/
noncomputable def perpUpdateState (desired : ℝ) (s : PerpState) : PerpState :=
  if s.entropy - desired > 0 then
    { s with
      minBeta := some s.beta
      beta := match s.maxBeta with
              | none => s.beta * 2
              | some mb => (s.beta + mb) / 2 }
  else
    { s with
      maxBeta := some s.beta
      beta := match s.minBeta with
              | none => s.beta / 2
              | some mb => (s.beta + mb) / 2 }

open Classical in
/-- The per-row `for iteration in range(max_iter)` loop of
`compute_gaussian_perplexity` (`_tsne.pyx` lines 75-101): evaluate, break when
`fabs(entropy - desired) <= tol`, otherwise update the brackets and continue
with the remaining fuel. -/
noncomputable def perpLoop (d : ℕ → ℝ) (k : ℕ) (desired tol : ℝ) :
    ℕ → PerpState → PerpState
  | 0, s => s
  | fuel + 1, s =>
    if |(perpEvalState d k s).entropy - desired| ≤ tol then perpEvalState d k s
    else perpLoop d k desired tol fuel (perpUpdateState desired (perpEvalState d k s))

open Classical in
/-- The precision actually used for the row's final kernel evaluation: the
`beta[i]` in effect during the last executed iteration of the row's binary
search.  When the search converges this is the final value of `beta[i]`; when
`max_iter` is exhausted, `beta[i]` receives one further bracket update that is
never used to recompute the row, and this definition returns the value before
that unused update. -/
noncomputable def perpBetaUsed (d : ℕ → ℝ) (k : ℕ) (desired tol : ℝ) :
    ℕ → PerpState → ℝ
  | 0, s => s.beta
  | fuel + 1, s =>
    if |(perpEvalState d k s).entropy - desired| ≤ tol then s.beta
    else
      match fuel with
      | 0 => s.beta
      | f + 1 =>
        perpBetaUsed d k desired tol (f + 1)
          (perpUpdateState desired (perpEvalState d k s))

open Classical in
/-- The number of binary-search iterations a row executes: mirrors `perpLoop`
and counts one per executed loop body. -/
noncomputable def perpIterCount (d : ℕ → ℝ) (k : ℕ) (desired tol : ℝ) :
    ℕ → PerpState → ℕ
  | 0, _ => 0
  | fuel + 1, s =>
    if |(perpEvalState d k s).entropy - desired| ≤ tol then 1
    else
      1 + perpIterCount d k desired tol fuel
            (perpUpdateState desired (perpEvalState d k s))

/-- The initial per-row state of `compute_gaussian_perplexity`: `beta = 1`
(`np.ones`), both brackets at their infinite sentinels, `P` zeroed
(`np.zeros_like`). -/
noncomputable def perpInitState : PerpState :=
  { beta := 1, minBeta := none, maxBeta := none, P := fun _ => 0,
    sumPi := 0, entropy := 0 }

/-- One row of `compute_gaussian_perplexity` (`_tsne.pyx` lines 72-104): run
the binary search with `max_iter` fuel from the initial state, then normalize
`P[i, j] /= sum_Pi` for `j < k`.  There is no error path: a row whose search
never reaches the tolerance is normalized from its last evaluation exactly
like a converged one. -/
noncomputable def gaussianRow (d : ℕ → ℝ) (k : ℕ) (desired tol : ℝ)
    (maxIter : ℕ) : ℕ → ℝ :=
  let final := perpLoop d k desired tol maxIter perpInitState
  fun j => if j < k then final.P j / final.sumPi else final.P j

/-- `compute_gaussian_perplexity` (`_tsne.pyx` lines 51-106): clamp
`num_threads` to at least 1, then run the per-row binary search independently
for every row (the rows share no state, so the parallel `prange` is modelled
row by row), with `desired_entropy = log(desired_perplexity)`. -/
noncomputable def compute_gaussian_perplexity (distances : ℕ → ℕ → ℝ)
    (nExisting : ℕ) (desiredPerplexity tol : ℝ) (maxIter : ℕ)
    (numThreads : ℤ) : ℕ → ℕ → ℝ :=
  let nt := if numThreads < 1 then 1 else numThreads
  let _ := nt
  fun i => gaussianRow (distances i) nExisting (Real.log desiredPerplexity) tol maxIter

/-- `compute_positive_gradients` (`_tsne.pyx` lines 109-169).  The sparse
matrix is given in CSR form (`indices`, `indptr`, `P_data` as total functions
on indices; bounds checking is disabled in the source).  Returns the pair
`(sum_P, kl_divergence)` together with the final contents of the gradient
array: for each sample `i` and neighbor slot `k` in
`[indptr[i], indptr[i+1])`, the squared distance `d_ij` between
`embedding[i]` and `reference_embedding[indices[k]]` feeds the Student-t
similarity, and `q_ij * p_ij * diff[d]` accumulates into `gradient[i, d]`.
`sum_P` and `kl_divergence` accumulate only when `should_eval_error` is set.
`num_threads` is clamped to at least 1 and only affects scheduling. -/
noncomputable def compute_positive_gradients {dims : ℕ}
    (indices : ℕ → ℕ) (indptr : ℕ → ℕ) (Pdata : ℕ → ℝ)
    (embedding referenceEmbedding : ℕ → Fin dims → ℝ)
    (gradient : ℕ → Fin dims → ℝ) (dof : ℝ) (nSamples : ℕ)
    (numThreads : ℤ) (shouldEvalError : Bool) :
    (ℝ × ℝ) × (ℕ → Fin dims → ℝ) :=
  let nt := if numThreads < 1 then 1 else numThreads
  let _ := nt
  let dij : ℕ → ℕ → ℝ := fun i k =>
    ∑ d, (embedding i d - referenceEmbedding (indices k) d) ^ 2
  let qij : ℕ → ℕ → ℝ := fun i k => tstudent_q dof (dij i k)
  let grad' : ℕ → Fin dims → ℝ := fun i d =>
    if i < nSamples then
      gradient i d +
        ∑ k ∈ Finset.Ico (indptr i) (indptr (i + 1)),
          qij i k * Pdata k * (embedding i d - referenceEmbedding (indices k) d)
    else gradient i d
  let sumP : ℝ :=
    if shouldEvalError then
      ∑ i ∈ Finset.range nSamples,
        ∑ k ∈ Finset.Ico (indptr i) (indptr (i + 1)), Pdata k
    else 0
  let kl : ℝ :=
    if shouldEvalError then
      ∑ i ∈ Finset.range nSamples,
        ∑ k ∈ Finset.Ico (indptr i) (indptr (i + 1)),
          Pdata k * Real.log (Pdata k / (qij i k + EPSILONR))
    else 0
  ((sumP, kl), grad')

/-! Theorems. -/

theorem EPSILONR_pos : 0 < EPSILONR := by
  unfold EPSILONR
  positivity

/-- C1: the claim states that both gradient engines compute
`q_ij = dof / (dof + ‖yᵢ − yⱼ‖²)` raised to the power `(dof+1)/2` when
`dof ≠ 1`.  The code instead computes `q_ij ** (dof + 1) / 2`, in which `**`
binds tighter than `/`: the `(dof+1)`-th power is halved.  At the failing
input `dof = 2` with coincident points (squared distance `0`) the positive
engine's value is `1/2` while the claimed formula gives `1`; the Barnes-Hut
engine's value (whose distance additionally starts at `EPSILON`) also differs
from the claimed `1`. -/
theorem tstudent_q_power_slip :
    tstudent_q 2 0 = 1 / 2 ∧ tstudent_q_spec 2 0 = 1 ∧
    tstudent_q 2 0 ≠ tstudent_q_spec 2 0 ∧
    tstudent_q 2 (EPSILONR + 0) ≠ tstudent_q_spec 2 0 := by
  have h2 : (2 : ℝ) ≠ 1 := by norm_num
  have hcode : tstudent_q 2 0 = 1 / 2 := by
    simp only [tstudent_q, if_neg h2]
    norm_num [Real.one_rpow]
  have hspec : tstudent_q_spec 2 0 = 1 := by
    simp only [tstudent_q_spec, if_neg h2]
    norm_num [Real.one_rpow]
  refine ⟨hcode, hspec, ?_, ?_⟩
  · rw [hcode, hspec]
    norm_num
  · rw [hspec]
    have hd : (0 : ℝ) < 2 + (EPSILONR + 0) := by
      have := EPSILONR_pos
      linarith
    have hq0 : (0 : ℝ) ≤ 2 / (2 + (EPSILONR + 0)) := by positivity
    have hq1 : 2 / (2 + (EPSILONR + 0)) < 1 := by
      rw [div_lt_one hd]
      have := EPSILONR_pos
      linarith
    have hr : (2 / (2 + (EPSILONR + 0))) ^ ((2 : ℝ) + 1) < 1 :=
      Real.rpow_lt_one hq0 hq1 (by norm_num)
    have hlt : tstudent_q 2 (EPSILONR + 0) < 1 := by
      simp only [tstudent_q, if_neg h2]
      calc (2 / (2 + (EPSILONR + 0))) ^ ((2 : ℝ) + 1) / 2 < 1 / 2 := by linarith
        _ < 1 := by norm_num
    exact ne_of_lt hlt

/-- C2: the claim states that the min/max scans at the top of
`compute_negative_gradients_fft_1d` and `compute_negative_gradients_fft_2d`
compute the true minimum and maximum of every non-empty embedding.  Because
the maximum test sits in an `elif`, it is skipped whenever the minimum is
updated: on the decreasing 1-D embedding `[2, 1]` (and the single 2-D point
`(2, 1)`) the computed maximum remains the `-INFINITY` sentinel (`⊥`) even
though the true maximum is `2`. -/
theorem bounding_box_max_stays_bottom :
    minmax1d [2, 1] = (((1 : ℚ) : WithTop ℚ), (⊥ : WithBot ℚ)) ∧
    minmax2d [(2, 1)] = (((1 : ℚ) : WithTop ℚ), (⊥ : WithBot ℚ)) ∧
    [(2 : ℚ), 1].maximum = ((2 : ℚ) : WithBot ℚ) ∧
    (⊥ : WithBot ℚ) ≠ ((2 : ℚ) : WithBot ℚ) := by
  refine ⟨?_, ?_, ?_, ?_⟩ <;> decide

/-- C3: in the Hadamard-product loop of `compute_negative_gradients_fft_2d`
the real part of each coefficient is overwritten before the imaginary part is
updated: for coefficient `a + b*I` and kernel value `c + d*I` the loop stores
`real = a*c - b*d` and `imag = (a*c - b*d)*d + c*b`, which differs from the
imaginary part `a*d + b*c` of the true complex product for some inputs (for
example `a = 1, b = 0, c = 0, d = 1`). -/
theorem fft2d_hadamard_imag_uses_overwritten_real :
    (∀ a b c d : ℚ,
      fft2d_hadamard_step a b c d = (a * c - b * d, (a * c - b * d) * d + c * b)) ∧
    (fft2d_hadamard_step 1 0 0 1).2 ≠ 1 * 1 + 0 * 0 := by
  refine ⟨fun a b c d => rfl, ?_⟩
  norm_num [fft2d_hadamard_step]

/-- C4: `estimate_negative_gradient` skips empty nodes and duplicate leaves
(they contribute nothing to the gradient or to `sum_Q`), and otherwise uses a
node as a summary exactly when the node is a leaf or
`node.length / sqrt(distance) < theta`, where `distance` is the node's
(EPSILON-seeded squared) distance from the query point; when the test fails it
recurses into the children instead. -/
theorem estimate_negative_gradient_summary_rule {dims : ℕ}
    (np : ℕ) (leaf : Bool) (com : Fin dims → ℝ) (len : ℝ)
    (ch : List (QNode dims)) (point : Fin dims → ℝ) (theta dof : ℝ) :
    (np = 0 ∨ (leaf = true ∧ IsDuplicateOf com point) →
      estimate_negative_gradient (QNode.mk np leaf com len ch) point theta dof
        = (0, fun _ => 0)) ∧
    (¬(np = 0 ∨ (leaf = true ∧ IsDuplicateOf com point)) →
      (leaf = true ∨ len / Real.sqrt (nodePointDistance com point) < theta →
        estimate_negative_gradient (QNode.mk np leaf com len ch) point theta dof
          = ((np : ℝ) * tstudent_q dof (nodePointDistance com point),
             fun d => -((np : ℝ) * tstudent_q dof (nodePointDistance com point) ^ 2
                        * (point d - com d)))) ∧
      (¬(leaf = true ∨ len / Real.sqrt (nodePointDistance com point) < theta) →
        estimate_negative_gradient (QNode.mk np leaf com len ch) point theta dof
          = ((ch.map (fun c => (estimate_negative_gradient c point theta dof).1)).sum,
             fun d =>
               (ch.map (fun c => (estimate_negative_gradient c point theta dof).2 d)).sum))) := by
  refine ⟨fun h => ?_, fun h => ⟨fun hsum => ?_, fun hsum => ?_⟩⟩
  · rw [estimate_negative_gradient]
    rw [if_pos h]
  · rw [estimate_negative_gradient]
    rw [if_neg h, if_pos hsum]
  · rw [estimate_negative_gradient]
    rw [if_neg h, if_neg hsum]
    have h1 : ∀ g : QNode dims → ℝ,
        (ch.attach.map (fun c => g c.1)).sum = (ch.map g).sum := by
      intro g
      congr 1
      exact List.attach_map_coe ch g
    refine Prod.ext ?_ ?_
    · exact h1 (fun x => (estimate_negative_gradient x point theta dof).1)
    · funext d
      exact h1 (fun x => (estimate_negative_gradient x point theta dof).2 d)

/-- Witness for the C4 theorem: an empty two-dimensional leaf node contributes
nothing. -/
theorem estimate_negative_gradient_summary_rule_w :
    estimate_negative_gradient
        (QNode.mk 0 true (fun _ : Fin 2 => 0) 1 []) (fun _ => 0) (1 / 2) 1
      = (0, fun _ => 0) :=
  (estimate_negative_gradient_summary_rule 0 true (fun _ : Fin 2 => 0) 1 []
    (fun _ => 0) (1 / 2) 1).1 (Or.inl rfl)

/-- C5: `compute_negative_gradients_bh` accumulates one partial sum per point
(slot `i` holds the traversal's `sum_Q` increment for point `i`), reduces the
global `Z` as the sum of all the slots, divides every entry of the gradient
array by `Z + EPSILON`, and returns `Z`. -/
theorem bh_partial_sums_and_normalization {dims N : ℕ}
    (root : QNode dims) (embedding gradient : Fin N → Fin dims → ℝ)
    (theta dof : ℝ) (numThreads : ℤ) :
    (compute_negative_gradients_bh root embedding gradient theta dof numThreads).1
      = ∑ i : Fin N, (estimate_negative_gradient root (embedding i) theta dof).1 ∧
    ∀ i d,
      (compute_negative_gradients_bh root embedding gradient theta dof numThreads).2 i d
        = (gradient i d
            + (estimate_negative_gradient root (embedding i) theta dof).2 d)
          / ((compute_negative_gradients_bh root embedding gradient theta dof
                numThreads).1
             + EPSILONR) := by
  constructor
  · show (List.ofFn
      (fun i => (estimate_negative_gradient root (embedding i) theta dof).1)).sum = _
    rw [List.sum_ofFn]
  · intro i d
    rfl

theorem perpUpdateState_P (desired : ℝ) (s : PerpState) :
    (perpUpdateState desired s).P = s.P := by
  unfold perpUpdateState
  split <;> rfl

theorem perpEvalState_P (d : ℕ → ℝ) (k : ℕ) (s : PerpState) (j : ℕ) :
    (perpEvalState d k s).P j
      = if j < k then Real.exp (-(d j) * s.beta) else s.P j := rfl

theorem perpEvalState_sumPi (d : ℕ → ℝ) (k : ℕ) (s : PerpState) :
    (perpEvalState d k s).sumPi
      = (∑ j ∈ Finset.range k, Real.exp (-(d j) * s.beta)) + EPSILONR := rfl

theorem perpBetaUsed_succ_of_conv (d : ℕ → ℝ) (k : ℕ) (desired tol : ℝ)
    (f : ℕ) (s : PerpState)
    (hc : |(perpEvalState d k s).entropy - desired| ≤ tol) :
    perpBetaUsed d k desired tol (f + 1) s = s.beta := by
  rw [perpBetaUsed.eq_def]
  show (if |(perpEvalState d k s).entropy - desired| ≤ tol then s.beta
        else match f with
             | 0 => s.beta
             | f' + 1 => perpBetaUsed d k desired tol (f' + 1)
                 (perpUpdateState desired (perpEvalState d k s))) = s.beta
  rw [if_pos hc]

theorem perpBetaUsed_one_of_not_conv (d : ℕ → ℝ) (k : ℕ) (desired tol : ℝ)
    (s : PerpState)
    (hc : ¬ |(perpEvalState d k s).entropy - desired| ≤ tol) :
    perpBetaUsed d k desired tol (0 + 1) s = s.beta := by
  rw [perpBetaUsed.eq_def]
  show (if |(perpEvalState d k s).entropy - desired| ≤ tol then s.beta
        else match (0 : ℕ) with
             | 0 => s.beta
             | f' + 1 => perpBetaUsed d k desired tol (f' + 1)
                 (perpUpdateState desired (perpEvalState d k s))) = s.beta
  rw [if_neg hc]

theorem perpBetaUsed_succsucc_of_not_conv (d : ℕ → ℝ) (k : ℕ) (desired tol : ℝ)
    (f : ℕ) (s : PerpState)
    (hc : ¬ |(perpEvalState d k s).entropy - desired| ≤ tol) :
    perpBetaUsed d k desired tol (f + 1 + 1) s
      = perpBetaUsed d k desired tol (f + 1)
          (perpUpdateState desired (perpEvalState d k s)) := by
  rw [perpBetaUsed.eq_def]
  show (if |(perpEvalState d k s).entropy - desired| ≤ tol then s.beta
        else match f + 1 with
             | 0 => s.beta
             | f2 + 1 => perpBetaUsed d k desired tol (f2 + 1)
                 (perpUpdateState desired (perpEvalState d k s))) = _
  rw [if_neg hc]

/-- Invariant of the per-row loop: with at least one unit of fuel, the final
state's `P` row (below `k`) and `sum_Pi` are exactly the evaluation of the
kernel at the last-used precision `perpBetaUsed`, while entries at or above
`k` are untouched. -/
theorem perpLoop_eval_inv (d : ℕ → ℝ) (k : ℕ) (desired tol : ℝ) :
    ∀ fuel s, 1 ≤ fuel →
      (∀ j, (perpLoop d k desired tol fuel s).P j
          = if j < k then
              Real.exp (-(d j) * perpBetaUsed d k desired tol fuel s)
            else s.P j) ∧
      (perpLoop d k desired tol fuel s).sumPi
        = (∑ j ∈ Finset.range k,
            Real.exp (-(d j) * perpBetaUsed d k desired tol fuel s)) + EPSILONR := by
  intro fuel
  induction fuel with
  | zero => intro s h; exact absurd h (by omega)
  | succ f ih =>
    intro s _
    by_cases hc : |(perpEvalState d k s).entropy - desired| ≤ tol
    · have hl : perpLoop d k desired tol (f + 1) s = perpEvalState d k s := by
        simp only [perpLoop, if_pos hc]
      have hb : perpBetaUsed d k desired tol (f + 1) s = s.beta :=
        perpBetaUsed_succ_of_conv d k desired tol f s hc
      rw [hl, hb]
      exact ⟨fun j => rfl, rfl⟩
    · cases f with
      | zero =>
        have hl : perpLoop d k desired tol (0 + 1) s
            = perpUpdateState desired (perpEvalState d k s) := by
          simp only [perpLoop, if_neg hc]
        have hb : perpBetaUsed d k desired tol (0 + 1) s = s.beta :=
          perpBetaUsed_one_of_not_conv d k desired tol s hc
        rw [hl, hb]
        constructor
        · intro j
          rw [perpUpdateState_P]
          rfl
        · have hs : (perpUpdateState desired (perpEvalState d k s)).sumPi
              = (perpEvalState d k s).sumPi := by
            unfold perpUpdateState
            split <;> rfl
          rw [hs]
          rfl
      | succ f' =>
        have hl : perpLoop d k desired tol (f' + 1 + 1) s
            = perpLoop d k desired tol (f' + 1)
                (perpUpdateState desired (perpEvalState d k s)) := by
          simp only [perpLoop, if_neg hc]
        have hb : perpBetaUsed d k desired tol (f' + 1 + 1) s
            = perpBetaUsed d k desired tol (f' + 1)
                (perpUpdateState desired (perpEvalState d k s)) :=
          perpBetaUsed_succsucc_of_not_conv d k desired tol f' s hc
        rw [hl, hb]
        obtain ⟨ihP, ihS⟩ :=
          ih (perpUpdateState desired (perpEvalState d k s)) (by omega)
        refine ⟨fun j => ?_, ihS⟩
        rw [ihP j]
        by_cases hj : j < k
        · rw [if_pos hj, if_pos hj]
        · rw [if_neg hj, if_neg hj]
          rw [perpUpdateState_P]
          rw [perpEvalState_P, if_neg hj]

/-- C6: `compute_gaussian_perplexity` is total (a row whose binary search
exhausts `max_iter` without reaching the tolerance is normalized silently,
exactly like a converged row), and every returned entry below `n_existing`
equals `exp(-distances[i, j] * beta_i)` divided by the sum over the row of
`exp(-distances[i, j'] * beta_i)` plus `EPSILON`, where `beta_i` is the
row's final beta — the precision in effect during the row's last kernel
evaluation (`perpBetaUsed`). -/
theorem gaussian_perplexity_row_normalization
    (distances : ℕ → ℕ → ℝ) (nExisting : ℕ) (perp tol : ℝ) (maxIter : ℕ)
    (numThreads : ℤ) (i j : ℕ) (hIter : 1 ≤ maxIter) (hj : j < nExisting) :
    compute_gaussian_perplexity distances nExisting perp tol maxIter numThreads i j
      = Real.exp (-(distances i j)
            * perpBetaUsed (distances i) nExisting (Real.log perp) tol maxIter
                perpInitState)
        / ((∑ j' ∈ Finset.range nExisting,
              Real.exp (-(distances i j')
                * perpBetaUsed (distances i) nExisting (Real.log perp) tol maxIter
                    perpInitState))
           + EPSILONR) := by
  obtain ⟨hP, hS⟩ :=
    perpLoop_eval_inv (distances i) nExisting (Real.log perp) tol maxIter
      perpInitState hIter
  show (if j < nExisting then
          (perpLoop (distances i) nExisting (Real.log perp) tol maxIter
              perpInitState).P j
            / (perpLoop (distances i) nExisting (Real.log perp) tol maxIter
                perpInitState).sumPi
        else (perpLoop (distances i) nExisting (Real.log perp) tol maxIter
                perpInitState).P j)
      = _
  rw [if_pos hj, hP j, if_pos hj, hS]

/-- Witness for the C6 theorem at a concrete one-column row of zero
distances. -/
theorem gaussian_perplexity_row_normalization_w :
    compute_gaussian_perplexity (fun _ _ => 0) 1 1 1 1 1 0 0
      = Real.exp (-(0 : ℝ)
            * perpBetaUsed (fun _ => (0 : ℝ)) 1 (Real.log 1) 1 1 perpInitState)
        / ((∑ j' ∈ Finset.range 1,
              Real.exp (-(0 : ℝ)
                * perpBetaUsed (fun _ => (0 : ℝ)) 1 (Real.log 1) 1 1 perpInitState))
           + EPSILONR) :=
  gaussian_perplexity_row_normalization (fun _ _ => 0) 1 1 1 1 1 0 0
    (le_refl 1) Nat.one_pos

/-- C7: in every non-converged binary-search step, when the entropy exceeds
the target the lower bound moves to the current beta and beta doubles when the
upper bound is the infinite sentinel (otherwise it moves to the midpoint with
the upper bound); symmetrically, when the entropy is below the target the
upper bound moves to the current beta and beta halves when the lower bound is
the infinite sentinel (otherwise midpoint with the lower bound); and each
row's loop executes at most `max_iter` iterations. -/
theorem perplexity_search_update_rule :
    (∀ (desired : ℝ) (s : PerpState), s.entropy - desired > 0 →
      perpUpdateState desired s =
        { s with
          minBeta := some s.beta
          beta := match s.maxBeta with
                  | none => s.beta * 2
                  | some mb => (s.beta + mb) / 2 }) ∧
    (∀ (desired : ℝ) (s : PerpState), s.entropy - desired < 0 →
      perpUpdateState desired s =
        { s with
          maxBeta := some s.beta
          beta := match s.minBeta with
                  | none => s.beta / 2
                  | some mb => (s.beta + mb) / 2 }) ∧
    (∀ (d : ℕ → ℝ) (k : ℕ) (desired tol : ℝ) (fuel : ℕ) (s : PerpState),
      perpIterCount d k desired tol fuel s ≤ fuel) := by
  refine ⟨fun desired s h => ?_, fun desired s h => ?_, ?_⟩
  · unfold perpUpdateState
    rw [if_pos h]
  · unfold perpUpdateState
    rw [if_neg (by linarith : ¬s.entropy - desired > 0)]
  · intro d k desired tol fuel
    induction fuel with
    | zero => intro s; simp [perpIterCount]
    | succ f ih =>
      intro s
      by_cases hc : |(perpEvalState d k s).entropy - desired| ≤ tol
      · simp only [perpIterCount, if_pos hc]
        omega
      · simp only [perpIterCount, if_neg hc]
        have := ih (perpUpdateState desired (perpEvalState d k s))
        omega

/-- Witness for the C7 theorem: a concrete state with entropy above the
target doubles beta against the infinite upper sentinel. -/
theorem perplexity_search_update_rule_w :
    perpUpdateState 0 ⟨1, none, none, fun _ => 0, 0, 1⟩
      = ⟨1 * 2, some 1, none, fun _ => 0, 0, 1⟩ :=
  perplexity_search_update_rule.1 0 ⟨1, none, none, fun _ => 0, 0, 1⟩
    (by norm_num)

/-- C8: for every input, the pair `(sum_P, kl_divergence)` returned by
`compute_positive_gradients` and the final contents of the gradient array are
identical for any two thread counts at least 1: under exact arithmetic the
result does not depend on `num_threads` (the clamp and the schedule are the
only places it is read). -/
theorem positive_gradients_thread_count_invariant {dims : ℕ}
    (indices : ℕ → ℕ) (indptr : ℕ → ℕ) (Pdata : ℕ → ℝ)
    (embedding referenceEmbedding gradient : ℕ → Fin dims → ℝ)
    (dof : ℝ) (nSamples : ℕ) (shouldEvalError : Bool)
    (t1 t2 : ℤ) (h1 : 1 ≤ t1) (h2 : 1 ≤ t2) :
    compute_positive_gradients indices indptr Pdata embedding
        referenceEmbedding gradient dof nSamples t1 shouldEvalError
      = compute_positive_gradients indices indptr Pdata embedding
          referenceEmbedding gradient dof nSamples t2 shouldEvalError := rfl

/-- Witness for the C8 theorem at thread counts 1 and 2 on a trivial input. -/
theorem positive_gradients_thread_count_invariant_w :
    compute_positive_gradients (fun _ => 0) (fun _ => 0) (fun _ => 0)
        (fun _ (_ : Fin 2) => (0 : ℝ)) (fun _ _ => 0) (fun _ _ => 0) 1 0 1 false
      = compute_positive_gradients (fun _ => 0) (fun _ => 0) (fun _ => 0)
          (fun _ (_ : Fin 2) => (0 : ℝ)) (fun _ _ => 0) (fun _ _ => 0) 1 0 2
          false :=
  positive_gradients_thread_count_invariant (fun _ => 0) (fun _ => 0)
    (fun _ => 0) (fun _ (_ : Fin 2) => (0 : ℝ)) (fun _ _ => 0) (fun _ _ => 0)
    1 0 false 1 2 (by decide) (by decide)

/-- C9: every thread count below 1 is clamped to 1 at the start of each
parallel entry point, so `compute_gaussian_perplexity`,
`compute_positive_gradients` and `compute_negative_gradients_bh` behave
identically to the same call with `num_threads = 1`: no call fails or changes
result because of a non-positive thread count. -/
theorem thread_clamp_identical_behavior :
    ∀ t : ℤ, t < 1 →
      (∀ (distances : ℕ → ℕ → ℝ) (nExisting : ℕ) (perp tol : ℝ)
          (maxIter : ℕ),
        compute_gaussian_perplexity distances nExisting perp tol maxIter t
          = compute_gaussian_perplexity distances nExisting perp tol maxIter 1) ∧
      (∀ (dims : ℕ) (indices indptr : ℕ → ℕ) (Pdata : ℕ → ℝ)
          (embedding referenceEmbedding gradient : ℕ → Fin dims → ℝ)
          (dof : ℝ) (nSamples : ℕ) (shouldEvalError : Bool),
        compute_positive_gradients indices indptr Pdata embedding
            referenceEmbedding gradient dof nSamples t shouldEvalError
          = compute_positive_gradients indices indptr Pdata embedding
              referenceEmbedding gradient dof nSamples 1 shouldEvalError) ∧
      (∀ (dims N : ℕ) (root : QNode dims)
          (embedding gradient : Fin N → Fin dims → ℝ) (theta dof : ℝ),
        compute_negative_gradients_bh root embedding gradient theta dof t
          = compute_negative_gradients_bh root embedding gradient theta dof 1) := by
  intro t ht
  refine ⟨?_, ?_, ?_⟩ <;> intros <;> rfl

/-- Witness for the C9 theorem at thread count 0. -/
theorem thread_clamp_identical_behavior_w :
    compute_gaussian_perplexity (fun _ _ => 0) 1 1 1 1 0
      = compute_gaussian_perplexity (fun _ _ => 0) 1 1 1 1 1 :=
  (thread_clamp_identical_behavior 0 (by decide)).1 (fun _ _ => 0) 1 1 1 1
